import Mathlib

/-
Shallow embedding of the agent orchestration pipeline of the
`core-github-api` repository:

* `searchRepositoriesWithRetry` and `analyzeRepository` from `src/index.ts`
  (lines 360-479);
* the per-message body of the `queue` consumer from `src/index.ts`
  (lines 511-571), as `processMessage`;
* the `OrchestratorAgent` durable object from `src/agents/orchestrator.ts`
  (`start`, `getStatus`, `workflowComplete`); both HTTP routes and the queue
  consumer address it through the fixed name `idFromName('orchestrator')`,
  so a single agent instance (one `pendingSearches` storage key) is shared
  by every session;
* the D1 tables from `migrations_agents/0001_add_agent_tables.sql`,
  including the `UNIQUE (session_id, repo_full_name)` constraint on
  `repo_analysis`.

External effects (the D1 database, the queue, the Workers AI binding) are
modelled by explicit state passing and by injected call outcomes: an AI or
search call either yields a value or throws, which we represent with
`Except Unit` and small outcome inductives.
-/

namespace CoreGH

/-- Row of the `sessions` table (`session_id`, `prompt`). -/
structure SessionRow where
  sessionId : String
  prompt : String
deriving DecidableEq, Repr

/-- Row of the `searches` table; `status` defaults to `"pending"` per the
migration (`status TEXT DEFAULT 'pending'`). -/
structure SearchRow where
  id : Nat
  sessionId : String
  searchTerm : String
  status : String
deriving DecidableEq, Repr

/-- Row of the `repo_analysis` table. `analyzedAt` models the
`analyzed_at DEFAULT CURRENT_TIMESTAMP` column as the monotone insertion
index (rows are only ever appended by this subsystem). Scores are JS
numbers, embedded as rationals. -/
structure AnalysisRow where
  id : Nat
  sessionId : String
  searchId : Nat
  repoFullName : String
  repoUrl : String
  description : String
  relevancyScore : Rat
  analyzedAt : Nat
deriving DecidableEq, Repr

/-- The D1 database state: the three tables of the agent pipeline. -/
structure Db where
  sessions : List SessionRow
  searches : List SearchRow
  repoAnalysis : List AnalysisRow
deriving DecidableEq, Repr

/-- Durable-object storage of the single `OrchestratorAgent` instance:
the `pendingSearches` key (absent until the first `start` writes it). -/
structure AgentState where
  pendingSearches : Option (List Nat)
deriving DecidableEq, Repr

/-- A queue message `{sessionId, searchId, searchTerm}` as enqueued by the
`GithubSearchWorkflow` and consumed by the `queue` handler. -/
structure Msg where
  sessionId : String
  searchId : Nat
  searchTerm : String
deriving DecidableEq, Repr

/-- Whole-system state: the D1 database, the singleton orchestrator agent
storage, and the multiset of enqueued messages (as a list). -/
structure SysState where
  db : Db
  agent : AgentState
  queue : List Msg
deriving DecidableEq, Repr

/-- A repository item from the GitHub search response
(`full_name`, `html_url`, `description`). -/
structure Repo where
  fullName : String
  htmlUrl : String
  description : String
deriving DecidableEq, Repr

/-- Outcome of one iteration of the retry loop in
`searchRepositoriesWithRetry`: the internal fetch either returns status 200
with a body, returns a non-200 response (no throw, no sleep), or throws. -/
inductive AttemptOutcome
  | ok (items : List Repo)
  | non200
  | throwErr
deriving DecidableEq, Repr

/-- Observable trace of one `searchRepositoriesWithRetry` call: its result
(`.error` when the last attempt's exception is rethrown; `.ok none` when the
loop exhausts without a 200 response and the function returns `undefined`),
the number of attempts made, and the backoff sleeps performed (ms). -/
structure RetryTrace where
  result : Except Unit (Option (List Repo))
  attemptsMade : Nat
  sleepsMs : List Nat
deriving Repr

/-- Loop body of `searchRepositoriesWithRetry` (src/index.ts:366-386).
First numeric argument is the number of loop iterations remaining
(`retries - i`), second is the loop index `i`. On a thrown fetch error the
code rethrows when `i === retries - 1` and otherwise sleeps
`1000 * (i + 1)` ms before the next attempt; a non-200 response neither
throws nor sleeps. -/
def searchRetryAux (attempt : Nat → AttemptOutcome) (retries : Nat) :
    Nat → Nat → RetryTrace
  | 0, _ => { result := .ok none, attemptsMade := 0, sleepsMs := [] }
  | remaining + 1, i =>
    match attempt i with
    | .ok items => { result := .ok (some items), attemptsMade := 1, sleepsMs := [] }
    | .non200 =>
      let r := searchRetryAux attempt retries remaining (i + 1)
      { result := r.result, attemptsMade := r.attemptsMade + 1, sleepsMs := r.sleepsMs }
    | .throwErr =>
      if i = retries - 1 then
        { result := .error (), attemptsMade := 1, sleepsMs := [] }
      else
        let r := searchRetryAux attempt retries remaining (i + 1)
        { result := r.result, attemptsMade := r.attemptsMade + 1,
          sleepsMs := 1000 * (i + 1) :: r.sleepsMs }

/-- The function `searchRepositoriesWithRetry` of src/index.ts:360-387 with
its default `retries = 3`, parameterized by the outcome of each underlying
fetch attempt. -/
def searchRepositoriesWithRetry (attempt : Nat → AttemptOutcome) : RetryTrace :=
  searchRetryAux attempt 3 3 0

/-- Whether a character is an ASCII digit, as matched by `\d`. -/
def isDigitChar (c : Char) : Bool := '0' ≤ c && c ≤ '9'

/-- Numeric value of an ASCII digit character. -/
def digitVal (c : Char) : Nat := c.toNat - '0'.toNat

/-- Longest run of leading digits, as matched by a greedy `\d+`. -/
def takeDigits : List Char → List Char
  | [] => []
  | c :: rest => if isDigitChar c then c :: takeDigits rest else []

/-- Natural number denoted by a digit string. -/
def digitsToNat (ds : List Char) : Nat :=
  ds.foldl (fun acc c => 10 * acc + digitVal c) 0

/-- Value of the matched token `c.ds` parsed by `Number.parseFloat`
(one integer digit, a dot, then the fractional digits). -/
def floatTokenValue (c : Char) (ds : List Char) : Rat :=
  mkRat (digitVal c * 10 ^ ds.length + digitsToNat ds) (10 ^ ds.length)

/-- Leftmost match of the regex `(\d\.\d+)` over a character list, parsed as
a number: at each position, a digit followed by a dot followed by at least
one digit matches greedily; otherwise the scan advances one character. -/
def scanFloat : List Char → Option Rat
  | [] => none
  | c :: rest =>
    match rest with
    | d :: e :: rest2 =>
      if isDigitChar c && d == '.' && isDigitChar e then
        some (floatTokenValue c (e :: takeDigits rest2))
      else scanFloat rest
    | _ => scanFloat rest

/-- The regex fallback of `analyzeRepository` (src/index.ts:469-475):
`rawAnalysisText.match(/(\d\.\d+)/)` followed by `Number.parseFloat`.
A matched token always parses to a finite number, so the
`Number.isFinite` guard in the source always passes on a match. -/
def extractScore (raw : String) : Option Rat := scanFloat raw.data

/-- Outcome of the structuring stage of `analyzeRepository`: either the
model call or `JSON.parse` throws (both are caught by the single
`try/catch`), or parsing succeeds and `structuredResponse.relevancyScore`
is a number (`some`) or is not (`none`). -/
inductive Stage2Result
  | throwErr
  | parsed (score : Option Rat)
deriving DecidableEq, Repr

/-- The function `analyzeRepository` of src/index.ts:390-479. `stage1` is
the result of the reasoning call (its raw text, or a throw — the call at
line 426 is outside the `try`, so its exception propagates to the caller).
`stage2` is the outcome of the structuring call: a numeric
`relevancyScore` is returned verbatim (line 459, no clamping); parsed
output without a numeric score yields 0 directly (line 463); only a thrown
stage-2 call or a `JSON.parse` failure reaches the regex fallback over the
stage-1 raw text (lines 465-477), which yields 0 when no token matches. -/
def analyzeRepository (stage1 : Except Unit String) (stage2 : Stage2Result) :
    Except Unit Rat :=
  match stage1 with
  | .error e => .error e
  | .ok raw =>
    match stage2 with
    | .parsed (some s) => .ok s
    | .parsed none => .ok 0
    | .throwErr =>
      match extractScore raw with
      | some s => .ok s
      | none => .ok 0

/-- Injected outcomes of the external calls made while processing one queue
message: the search (the whole `searchRepositoriesWithRetry` call, which
either throws, returns `undefined` after exhausting non-200 attempts, or
returns the parsed response items) and, per repository, the two stages of
`analyzeRepository`. Functions make the environment deterministic: a
redelivered message sees the same outcomes. -/
structure QueueEnv where
  search : String → Except Unit (Option (List Repo))
  stage1 : Repo → String → Except Unit String
  stage2 : Repo → String → Stage2Result

/-- The existence check of queue step 2a (src/index.ts:530-538): a select on
`repo_analysis` for the `(session_id, repo_full_name)` pair. The same pair
is the `UNIQUE` constraint of the migration. -/
def keyPresent (rows : List AnalysisRow) (sid name : String) : Bool :=
  rows.any (fun r => r.sessionId == sid && r.repoFullName == name)

/-- An insert into `repo_analysis` (src/index.ts:548-555) under the
`UNIQUE (session_id, repo_full_name)` constraint: when the key already
exists the statement throws `UniqueConstraintViolation` and the table is
unchanged (second component `true`); otherwise the row is appended. -/
def insertAnalysis (db : Db) (row : AnalysisRow) : Db × Bool :=
  if keyPresent db.repoAnalysis row.sessionId row.repoFullName then (db, true)
  else ({ db with repoAnalysis := db.repoAnalysis ++ [row] }, false)

/-- The `repo_analysis` row built for one analyzed repository
(src/index.ts:548-555); `id` and `analyzedAt` are the next rowid of the
append-only table (the migration's autoincrement id and timestamp
default). -/
def newRow (sid : String) (searchId : Nat) (repo : Repo) (score : Rat) (db : Db) :
    AnalysisRow :=
  { id := db.repoAnalysis.length + 1, sessionId := sid, searchId := searchId,
    repoFullName := repo.fullName, repoUrl := repo.htmlUrl,
    description := repo.description, relevancyScore := score,
    analyzedAt := db.repoAnalysis.length + 1 }

/-- The per-repository loop of the queue consumer (src/index.ts:528-556):
skip a repository whose `(session_id, repo_full_name)` already has a row,
otherwise analyze it and insert the row. The second component is `true`
when an uncaught exception aborted the loop (a thrown analysis call or a
constraint violation); rows inserted before the abort remain, because D1
statements are not transactional across the loop. -/
def analyzeLoop (env : QueueEnv) (sid : String) (searchId : Nat) (term : String) :
    Db → List Repo → Db × Bool
  | db, [] => (db, false)
  | db, repo :: rest =>
    if keyPresent db.repoAnalysis sid repo.fullName then
      analyzeLoop env sid searchId term db rest
    else
      match analyzeRepository (env.stage1 repo term) (env.stage2 repo term) with
      | .error _ => (db, true)
      | .ok score =>
        match insertAnalysis db (newRow sid searchId repo score db) with
        | (db1, true) => (db1, true)
        | (db1, false) => analyzeLoop env sid searchId term db1 rest

/-- The status update of queue step 3 (src/index.ts:559-561):
`UPDATE searches SET status = 'completed' WHERE id = searchId`. -/
def markCompleted (rows : List SearchRow) (searchId : Nat) : List SearchRow :=
  rows.map (fun r => if r.id == searchId then { r with status := "completed" } else r)

/-- The method `workflowComplete` of the `OrchestratorAgent`
(src/agents/orchestrator.ts:66-72): filter the completed search id out of
the stored `pendingSearches` list; a no-op when the key is absent. -/
def workflowComplete (st : SysState) (searchId : Nat) : SysState :=
  match st.agent.pendingSearches with
  | none => st
  | some l =>
    { st with agent := { pendingSearches := some (l.filter (fun i => i != searchId)) } }

/-- Result of processing one queue message: the new system state, whether
`message.ack()` ran, and whether an uncaught exception escaped the handler
(in which case the message is not acknowledged and will be redelivered). -/
structure ConsumeResult where
  state : SysState
  acked : Bool
  errored : Bool
deriving DecidableEq, Repr

/-- The per-message body of the `queue` handler (src/index.ts:520-570).
There is no task-status short circuit and no catch around the search: a
thrown search (or the `TypeError` from reading `.items` of `undefined`)
escapes the handler before any write, the task is never marked `failed`,
and `message.ack()` runs only on the all-success path, after the status
update and the `workflowComplete` call on the singleton orchestrator. -/
def processMessage (env : QueueEnv) (st : SysState) (m : Msg) : ConsumeResult :=
  match env.search m.searchTerm with
  | .error _ => { state := st, acked := false, errored := true }
  | .ok none => { state := st, acked := false, errored := true }
  | .ok (some items) =>
    match analyzeLoop env m.sessionId m.searchId m.searchTerm st.db items with
    | (db2, true) => { state := { st with db := db2 }, acked := false, errored := true }
    | (db2, false) =>
      let db3 := { db2 with searches := markCompleted db2.searches m.searchId }
      let st3 := workflowComplete { st with db := db3 } m.searchId
      { state := st3, acked := true, errored := false }

/-- The fan-out loop of `OrchestratorAgent.start`
(src/agents/orchestrator.ts:29-45): for each term insert a `searches` row
(`last_row_id` modelled as one past the current row count), create the
workflow (which enqueues the `{sessionId, searchId, searchTerm}` message),
and collect the new ids. -/
def dispatchAll (sid : String) : List String → Db → List Msg → Db × List Msg × List Nat
  | [], db, q => (db, q, [])
  | t :: ts, db, q =>
    let newId := db.searches.length + 1
    let db1 := { db with searches :=
      db.searches ++ [{ id := newId, sessionId := sid, searchTerm := t, status := "pending" }] }
    let q1 := q ++ [{ sessionId := sid, searchId := newId, searchTerm := t }]
    let r := dispatchAll sid ts db1 q1
    (r.1, r.2.1, newId :: r.2.2)

/-- The method `OrchestratorAgent.start` (src/agents/orchestrator.ts:16-51),
parameterized by the generated session id and the outcome of
`generateSearchTerms` (whose first inference call sits outside any
`try/catch`, so its exception propagates). The session row is persisted
before term generation; on a throw the stored `pendingSearches` key keeps
whatever value it held. On success the key is overwritten with the new ids
— the singleton agent has one key for all sessions. -/
def start (genTerms : Except Unit (List String)) (sid prompt : String)
    (st : SysState) : SysState × Except Unit String :=
  let db1 := { st.db with sessions := st.db.sessions ++ [{ sessionId := sid, prompt := prompt }] }
  match genTerms with
  | .error e => ({ st with db := db1 }, .error e)
  | .ok terms =>
    let r := dispatchAll sid terms db1 st.queue
    ({ db := r.1, agent := { pendingSearches := some r.2.2 }, queue := r.2.1 }, .ok sid)

/-- Rows of `repo_analysis` belonging to one session
(the `WHERE session_id = ?` filter). -/
def sessionAnalysisRows (db : Db) (sid : String) : List AnalysisRow :=
  db.repoAnalysis.filter (fun r => r.sessionId == sid)

/-- Rows of `searches` belonging to one session. -/
def sessionSearchRows (db : Db) (sid : String) : List SearchRow :=
  db.searches.filter (fun r => r.sessionId == sid)

/-- The method `OrchestratorAgent.getStatus`
(src/agents/orchestrator.ts:53-64): `pending` with empty results while the
stored `pendingSearches` list is present and non-empty (a check that never
consults the passed session id), otherwise `completed` with the rows the
store returns for `SELECT * FROM repo_analysis WHERE session_id = ?
ORDER BY relevancy_score DESC LIMIT 10`. The store's answer is the
parameter `q`; the SQL constrains it (see `d1CompliantAt`) but fixes no
order among equal scores. -/
def getStatus (q : Db → String → List AnalysisRow) (st : SysState) (sid : String) :
    String × List AnalysisRow :=
  match st.agent.pendingSearches with
  | some (_ :: _) => ("pending", [])
  | _ => ("completed", q st.db sid)

/-- Count of a session's `searches` rows with status `pending` or
`running` — the spec's store-derived liveness measure. -/
def pendingRunningCount (db : Db) (sid : String) : Nat :=
  (db.searches.filter
    (fun r => r.sessionId == sid && (r.status == "pending" || r.status == "running"))).length

/-- Relation "left row's score is at least right row's": the comparator of
`ORDER BY relevancy_score DESC`. -/
def scoreGE (a b : AnalysisRow) : Prop := b.relevancyScore ≤ a.relevancyScore

/-- A list ordered by relevancy score descending. -/
def sortedScoreDesc (l : List AnalysisRow) : Prop := List.Chain' scoreGE l

/-- Everything the SQL `SELECT ... WHERE session_id = ? ORDER BY
relevancy_score DESC LIMIT 10` guarantees about the store's answer `out`
for a database `db` and session `sid`: `out` is the 10-row truncation of
some reordering of the session's rows that is sorted by score descending.
No secondary sort key exists, so the order among equal scores is any. -/
def d1CompliantAt (db : Db) (sid : String) (out : List AnalysisRow) : Prop :=
  ∃ perm, (sessionAnalysisRows db sid).Perm perm ∧ sortedScoreDesc perm ∧
    out = perm.take 10

/-- A primitive D1 statement touching the agent tables. Concurrent queue
consumers interleave at statement granularity (each D1 statement is
atomic), so any concurrent execution is some sequence of these. -/
inductive DbOp
  | insertSessionOp (row : SessionRow)
  | insertSearchOp (row : SearchRow)
  | setSearchStatusOp (searchId : Nat) (status : String)
  | insertAnalysisOp (row : AnalysisRow)

/-- Effect of one primitive statement on the database; an
`insertAnalysisOp` hitting the `UNIQUE (session_id, repo_full_name)`
constraint leaves the table unchanged. -/
def applyOp (db : Db) : DbOp → Db
  | .insertSessionOp row => { db with sessions := db.sessions ++ [row] }
  | .insertSearchOp row => { db with searches := db.searches ++ [row] }
  | .setSearchStatusOp i s =>
    { db with searches := db.searches.map (fun r => if r.id == i then { r with status := s } else r) }
  | .insertAnalysisOp row => (insertAnalysis db row).1

/-- The empty database, as created by the migration. -/
def dbEmpty : Db := { sessions := [], searches := [], repoAnalysis := [] }

/-- Two analysis rows with the same `(sessionId, repoFullName)` key. -/
def sameKey (a b : AnalysisRow) : Prop :=
  a.sessionId = b.sessionId ∧ a.repoFullName = b.repoFullName

/-- At most one `repo_analysis` row per `(sessionId, repoFullName)` pair. -/
def uniqueAnalysisKeys (db : Db) : Prop :=
  db.repoAnalysis.Pairwise (fun a b => ¬ sameKey a b)

/-- Store backend answering every analysis query with no rows (adequate
for states with an empty `repo_analysis` table). -/
def qNil : Db → String → List AnalysisRow := fun _ _ => []

/-- Initial system state: empty database, orchestrator storage never
written, empty queue. -/
def st0 : SysState := { db := dbEmpty, agent := { pendingSearches := none }, queue := [] }

/-- Call environment where every search succeeds with zero items (the
analysis stages are never reached). -/
def envEmptySearch : QueueEnv :=
  { search := fun _ => .ok (some []),
    stage1 := fun _ _ => .ok "",
    stage2 := fun _ _ => .parsed none }

/-- Call environment where every search attempt throws, so
`searchRepositoriesWithRetry` rethrows after exhausting its retries. -/
def envThrowSearch : QueueEnv :=
  { search := fun _ => .error (),
    stage1 := fun _ _ => .ok "",
    stage2 := fun _ _ => .parsed none }

/-- The message dispatched for session A's single search task. -/
def mA : Msg := { sessionId := "A", searchId := 1, searchTerm := "tA" }

/-- State after session A starts with the single derived term "tA". -/
def stA : SysState := (start (.ok ["tA"]) "A" "pA" st0).1

/-- State after session A's one task has been fully processed. -/
def stAdone : SysState := (processMessage envEmptySearch stA mA).state

/-- State after session B starts once A is already complete. -/
def stB2 : SysState := (start (.ok ["tB"]) "B" "pB" stAdone).1

/-- State after session B starts while A's task is still outstanding. -/
def stBmid : SysState := (start (.ok ["tB"]) "B" "pB" stA).1

/-- State after A's task completes following B's interleaved start:
`start` for B overwrote the shared `pendingSearches` key, so A's completed
task id 1 is filtered from B's list `[2]` with no effect. -/
def stC4 : SysState := (processMessage envEmptySearch stBmid mA).state

/-- First of two equal-score analysis rows for session A (inserted first,
earlier `analyzedAt`). -/
def rowTieFirst : AnalysisRow :=
  { id := 1, sessionId := "A", searchId := 1, repoFullName := "x/one",
    repoUrl := "u1", description := "d1", relevancyScore := mkRat 1 2, analyzedAt := 1 }

/-- Second equal-score analysis row for session A (later `analyzedAt`). -/
def rowTieSecond : AnalysisRow :=
  { id := 2, sessionId := "A", searchId := 1, repoFullName := "x/two",
    repoUrl := "u2", description := "d2", relevancyScore := mkRat 1 2, analyzedAt := 2 }

/-- A terminal state whose store holds the two tied rows for session A. -/
def stTie : SysState :=
  { db := { sessions := [{ sessionId := "A", prompt := "pA" }],
            searches := [{ id := 1, sessionId := "A", searchTerm := "tA", status := "completed" }],
            repoAnalysis := [rowTieFirst, rowTieSecond] },
    agent := { pendingSearches := some [] }, queue := [] }

/-- A store backend that answers the tied query in insertion-reversed
order — legal for `ORDER BY relevancy_score DESC` with no secondary key. -/
def qTieReversed : Db → String → List AnalysisRow := fun _ _ => [rowTieSecond, rowTieFirst]

/-- Call environment for exercising a successful one-repository task. -/
def envOneRepo : QueueEnv :=
  { search := fun _ => .ok (some [{ fullName := "x/one", htmlUrl := "u1", description := "d1" }]),
    stage1 := fun _ _ => .ok "score 0.5",
    stage2 := fun _ _ => .parsed (some (mkRat 1 2)) }

end CoreGH

namespace CoreGH

example : extractScore "I rate this 0.8 overall" = some (mkRat 4 5) := by decide

example : stA.agent.pendingSearches = some [1] := by decide

example : stA.db.searches = [{ id := 1, sessionId := "A", searchTerm := "tA", status := "pending" }] := by decide

example : stA.queue = [mA] := by decide

example : stAdone.agent.pendingSearches = some [] := by decide

example : (getStatus qNil stAdone "A").1 = "completed" := by decide

example : stB2.agent.pendingSearches = some [2] := by decide

example : (getStatus qNil stB2 "A").1 = "pending" := by decide

example : stC4.agent.pendingSearches = some [2] := by decide

example : pendingRunningCount stC4.db "A" = 0 := by decide

example : (getStatus qNil stC4 "A").1 = "pending" := by decide

example : (processMessage envOneRepo stA mA).acked = true := by decide

example : (processMessage envOneRepo stA mA).state.db.repoAnalysis =
    [{ id := 1, sessionId := "A", searchId := 1, repoFullName := "x/one",
       repoUrl := "u1", description := "d1", relevancyScore := mkRat 1 2, analyzedAt := 1 }] := by
  decide

/-- Key lookups distribute over appended rows. -/
lemma keyPresent_append (rows ext : List AnalysisRow) (sid name : String) :
    keyPresent (rows ++ ext) sid name = (keyPresent rows sid name || keyPresent ext sid name) := by
  simp [keyPresent, List.any_append]

/-- The analysis loop only appends to `repo_analysis`. -/
lemma analyzeLoop_appendOnly (env : QueueEnv) (sid : String) (i : Nat) (term : String) :
    ∀ (items : List Repo) (db : Db), ∃ ext,
      (analyzeLoop env sid i term db items).1.repoAnalysis = db.repoAnalysis ++ ext := by
  intro items
  induction items with
  | nil => exact fun db => ⟨[], by simp [analyzeLoop]⟩
  | cons repo rest ih =>
    intro db
    by_cases hk : keyPresent db.repoAnalysis sid repo.fullName = true
    · obtain ⟨ext, he⟩ := ih db
      exact ⟨ext, by simpa [analyzeLoop, hk] using he⟩
    · cases hA : analyzeRepository (env.stage1 repo term) (env.stage2 repo term) with
      | error e => exact ⟨[], by simp [analyzeLoop, hk, hA]⟩
      | ok score =>
        obtain ⟨ext, he⟩ :=
          ih { db with repoAnalysis := db.repoAnalysis ++ [newRow sid i repo score db] }
        refine ⟨newRow sid i repo score db :: ext, ?_⟩
        have hstep : analyzeLoop env sid i term db (repo :: rest) =
            analyzeLoop env sid i term
              { db with repoAnalysis := db.repoAnalysis ++ [newRow sid i repo score db] } rest := by
          simp [analyzeLoop, hk, hA, insertAnalysis, newRow]
        rw [hstep, he]
        simp

/-- A key present before the analysis loop is still present after it. -/
lemma keyPresent_analyzeLoop_mono (env : QueueEnv) (sid : String) (i : Nat) (term : String)
    (items : List Repo) (db : Db) (k n : String)
    (h : keyPresent db.repoAnalysis k n = true) :
    keyPresent (analyzeLoop env sid i term db items).1.repoAnalysis k n = true := by
  obtain ⟨ext, he⟩ := analyzeLoop_appendOnly env sid i term items db
  rw [he, keyPresent_append, h, Bool.true_or]

/-- After a successful pass of the analysis loop, every processed
repository's key has a row. -/
lemma analyzeLoop_ok_present (env : QueueEnv) (sid : String) (i : Nat) (term : String) :
    ∀ (items : List Repo) (db db2 : Db),
      analyzeLoop env sid i term db items = (db2, false) →
      ∀ repo ∈ items, keyPresent db2.repoAnalysis sid repo.fullName = true := by
  intro items
  induction items with
  | nil => intro db db2 _ repo hr; cases hr
  | cons repo rest ih =>
    intro db db2 h r hr
    by_cases hk : keyPresent db.repoAnalysis sid repo.fullName = true
    · have h2 : analyzeLoop env sid i term db rest = (db2, false) := by
        simpa [analyzeLoop, hk] using h
      rcases List.mem_cons.mp hr with hEq | hr2
      · subst hEq
        have := keyPresent_analyzeLoop_mono env sid i term rest db sid r.fullName hk
        rwa [h2] at this
      · exact ih db db2 h2 r hr2
    · cases hA : analyzeRepository (env.stage1 repo term) (env.stage2 repo term) with
      | error e => simp [analyzeLoop, hk, hA] at h
      | ok score =>
        have h2 : analyzeLoop env sid i term
            { db with repoAnalysis := db.repoAnalysis ++ [newRow sid i repo score db] }
            rest = (db2, false) := by
          simpa [analyzeLoop, hk, hA, insertAnalysis, newRow] using h
        rcases List.mem_cons.mp hr with hEq | hr2
        · subst hEq
          have hkey : keyPresent
              ({ db with repoAnalysis :=
                  db.repoAnalysis ++ [newRow sid i r score db] } : Db).repoAnalysis
              sid r.fullName = true := by
            simp [keyPresent, newRow]
          have := keyPresent_analyzeLoop_mono env sid i term rest
            { db with repoAnalysis := db.repoAnalysis ++ [newRow sid i r score db] }
            sid r.fullName hkey
          rwa [h2] at this
        · exact ih _ db2 h2 r hr2

/-- When every repository's key already has a row, the analysis loop is a
complete no-op and succeeds. -/
lemma analyzeLoop_allPresent (env : QueueEnv) (sid : String) (i : Nat) (term : String) :
    ∀ (items : List Repo) (db : Db),
      (∀ repo ∈ items, keyPresent db.repoAnalysis sid repo.fullName = true) →
      analyzeLoop env sid i term db items = (db, false) := by
  intro items
  induction items with
  | nil => intro db _; simp [analyzeLoop]
  | cons repo rest ih =>
    intro db hall
    have hk : keyPresent db.repoAnalysis sid repo.fullName = true :=
      hall repo (List.mem_cons_self repo rest)
    have := ih db (fun r hr => hall r (List.mem_cons_of_mem repo hr))
    simpa [analyzeLoop, hk] using this

/-- Re-running the completed-status update changes nothing. -/
lemma markCompleted_idem (rows : List SearchRow) (i : Nat) :
    markCompleted (markCompleted rows i) i = markCompleted rows i := by
  unfold markCompleted
  rw [List.map_map]
  apply List.map_congr_left
  intro r _
  by_cases h : (r.id == i) = true <;> simp [Function.comp, h]

/-- Filtering a Boolean predicate twice equals filtering it once. -/
lemma filter_twice (p : Nat → Bool) (l : List Nat) :
    (l.filter p).filter p = l.filter p := by
  induction l with
  | nil => rfl
  | cons x xs ih =>
    by_cases h : p x = true <;> simp [List.filter_cons, h, ih]

/-- The `workflowComplete` call never touches the database. -/
lemma workflowComplete_db (x : SysState) (i : Nat) : (workflowComplete x i).db = x.db := by
  cases h : x.agent.pendingSearches <;> simp [workflowComplete, h]

/-- The `workflowComplete` call never touches the queue. -/
lemma workflowComplete_queue (x : SysState) (i : Nat) :
    (workflowComplete x i).queue = x.queue := by
  cases h : x.agent.pendingSearches <;> simp [workflowComplete, h]

/-- Removing an id already absent is a no-op: `workflowComplete` is
idempotent. -/
lemma workflowComplete_idem (x : SysState) (i : Nat) :
    workflowComplete (workflowComplete x i) i = workflowComplete x i := by
  cases h : x.agent.pendingSearches with
  | none => simp [workflowComplete, h]
  | some l => simp [workflowComplete, h, filter_twice]

/-- Overwriting the database field with its own value is the identity. -/
lemma setDb_eta (x : SysState) (d : Db) (h : x.db = d) : { x with db := d } = x := by
  subst h
  rfl

/-- C1 counterexample: when every search attempt throws, the queue handler
does not mark the task `failed`, does not call `workflowComplete`, and does
not acknowledge the message — the whole state is untouched and the handler
itself errors, contradicting the claimed mark-failed/TaskComplete/ack
behavior. -/
theorem search_failure_not_acked_cex :
    (processMessage envThrowSearch stA mA).acked = false ∧
    (processMessage envThrowSearch stA mA).state = stA ∧
    stA.db.searches = [{ id := 1, sessionId := "A", searchTerm := "tA", status := "pending" }] ∧
    stA.agent.pendingSearches = some [1] :=
  ⟨rfl, rfl, by decide, by decide⟩

/-- C1 (amended): `searchRepositoriesWithRetry` makes at most 3 attempts
and its backoff sleeps are drawn, in order, from the schedule 1s then 2s;
when every attempt throws it rethrows the final error; and the queue
consumer does not catch a thrown search: the message is not acknowledged,
nothing is written, and the handler errors (so the queue redelivers). -/
theorem searchRetry_bounded_error_unhandled :
    (∀ attempt : Nat → AttemptOutcome,
      (searchRepositoriesWithRetry attempt).attemptsMade ≤ 3 ∧
      (searchRepositoriesWithRetry attempt).sleepsMs ∈
        [([] : List Nat), [1000], [2000], [1000, 2000]]) ∧
    (∀ attempt : Nat → AttemptOutcome, (∀ i, attempt i = .throwErr) →
      (searchRepositoriesWithRetry attempt).result = .error ()) ∧
    (∀ (env : QueueEnv) (st : SysState) (m : Msg), env.search m.searchTerm = .error () →
      processMessage env st m = { state := st, acked := false, errored := true }) := by
  refine ⟨?_, ?_, ?_⟩
  · intro attempt
    cases h0 : attempt 0 <;> cases h1 : attempt 1 <;> cases h2 : attempt 2 <;>
      simp [searchRepositoriesWithRetry, searchRetryAux, h0, h1, h2]
  · intro attempt h
    simp [searchRepositoriesWithRetry, searchRetryAux, h 0, h 1, h 2]
  · intro env st m hs
    simp [processMessage, hs]

/-- C1 witness: the amended theorem applied to the all-throwing attempt
function and to a concrete state and message. -/
theorem searchRetry_bounded_error_unhandled_witness :
    (searchRepositoriesWithRetry (fun _ => AttemptOutcome.throwErr)).result = .error () ∧
    processMessage envThrowSearch st0 mA = { state := st0, acked := false, errored := true } :=
  ⟨searchRetry_bounded_error_unhandled.2.1 (fun _ => .throwErr) (fun _ => rfl),
   searchRetry_bounded_error_unhandled.2.2 envThrowSearch st0 mA rfl⟩

/-- C4 counterexample: a reachable state (session A starts, session B's
`start` overwrites the shared `pendingSearches` key, then A's only task
completes) in which `getStatus` reports `pending` for A although A has
zero tasks with status `pending` or `running` in the store. -/
theorem getStatus_pending_store_count_mismatch_cex :
    (getStatus qNil stC4 "A").1 = "pending" ∧
    pendingRunningCount stC4.db "A" = 0 ∧
    stC4 = (processMessage envEmptySearch (start (.ok ["tB"]) "B" "pB" stA).1 mA).state :=
  ⟨by decide, by decide, rfl⟩

/-- C4 (amended): `getStatus` answers `pending` exactly when the singleton
orchestrator's stored `pendingSearches` list is present and non-empty — a
global check that never consults the queried session, so it need not agree
with the store's per-session count of pending/running tasks. -/
theorem getStatus_pending_iff_agent_list_nonempty (q : Db → String → List AnalysisRow)
    (st : SysState) (sid : String) :
    (getStatus q st sid).1 = "pending" ↔
      ∃ x xs, st.agent.pendingSearches = some (x :: xs) := by
  cases h : st.agent.pendingSearches with
  | none => simp [getStatus, h]
  | some l =>
    cases l with
    | nil => simp [getStatus, h]
    | cons x xs => simp [getStatus, h]

/-- C5 counterexample: a structured response whose `relevancyScore` is the
number 5/2 is returned verbatim — `Score` yields a value outside [0,1]
(there is no clamping in src/index.ts:457-459); moreover a thrown stage-1
reasoning call fails the caller (the call is outside the try/catch). -/
theorem score_out_of_range_cex :
    analyzeRepository (.ok "") (.parsed (some (mkRat 5 2))) = .ok (mkRat 5 2) ∧
    ¬ ((mkRat 5 2) ≤ 1) ∧
    analyzeRepository (.error ()) (.parsed (some (mkRat 1 2))) = .error () :=
  ⟨rfl, by decide, rfl⟩

/-- C5 (amended): whenever the stage-1 reasoning call succeeds,
`analyzeRepository` never fails the caller — every stage-2 outcome
(including throws and schema-invalid output) produces some score — but no
clamping is performed: a numeric structured score is returned verbatim,
in range or not. -/
theorem score_structured_verbatim_no_failure :
    (∀ (raw : String) (st2 : Stage2Result),
      ∃ score, analyzeRepository (.ok raw) st2 = .ok score) ∧
    (∀ (raw : String) (s : Rat), analyzeRepository (.ok raw) (.parsed (some s)) = .ok s) := by
  refine ⟨?_, fun raw s => rfl⟩
  intro raw st2
  cases st2 with
  | parsed o =>
    cases o with
    | none => exact ⟨0, rfl⟩
    | some s => exact ⟨s, rfl⟩
  | throwErr =>
    cases h : extractScore raw with
    | none => exact ⟨0, by simp [analyzeRepository, h]⟩
    | some s => exact ⟨s, by simp [analyzeRepository, h]⟩

/-- C6 counterexample: stage 2 parses to JSON whose `relevancyScore` is not
a number (output failing schema validation), while stage 1's raw text
contains the token `0.8`; the code returns 0 directly (src/index.ts:463)
instead of the claimed regex-extracted 0.8. -/
theorem score_schema_invalid_skips_regex_cex :
    analyzeRepository (.ok "I rate this 0.8 overall") (.parsed none) = .ok 0 ∧
    extractScore "I rate this 0.8 overall" = some (mkRat 4 5) ∧
    mkRat 4 5 ≠ 0 :=
  ⟨rfl, by decide, by decide⟩

/-- C6 (amended): a parsed stage-2 response with a numeric
`relevancyScore` is used verbatim; a thrown stage-2 call or a JSON parse
failure falls back to the first `\d\.\d+` token of stage 1's raw text
(0 when none); but stage-2 output that parses yet fails validation yields
0 directly, skipping the regex fallback. -/
theorem score_fallback_order :
    (∀ (raw : String) (s : Rat), analyzeRepository (.ok raw) (.parsed (some s)) = .ok s) ∧
    (∀ raw : String, analyzeRepository (.ok raw) .throwErr = .ok ((extractScore raw).getD 0)) ∧
    (∀ raw : String, analyzeRepository (.ok raw) (.parsed none) = .ok 0) := by
  refine ⟨fun raw s => rfl, ?_, fun raw => rfl⟩
  intro raw
  cases h : extractScore raw <;> simp [analyzeRepository, h]

/-- C8 counterexample: with zero usable search terms, `start` succeeds
(returns the session id — no `GenerationError` exists in the code), and the
session is immediately terminal with empty results. -/
theorem start_zero_terms_no_error_cex :
    (start (.ok []) "S" "p" st0).2 = .ok "S" ∧
    getStatus qNil (start (.ok []) "S" "p" st0).1 "S" = ("completed", []) :=
  ⟨rfl, rfl⟩

/-- C8 (amended): a `start` whose term derivation yields zero usable terms
succeeds and returns the session id, dispatches no tasks and enqueues no
messages, writes `pendingSearches := []`, and leaves the session
immediately terminal: `getStatus` answers `completed` with an empty result
set (given a store answer obeying the SQL contract on a session with no
analysis rows). -/
theorem start_zero_terms_terminal_empty (sid prompt : String) (st : SysState)
    (q : Db → String → List AnalysisRow)
    (hfresh : sessionAnalysisRows st.db sid = [])
    (hc : d1CompliantAt (start (.ok []) sid prompt st).1.db sid
      (q (start (.ok []) sid prompt st).1.db sid)) :
    (start (.ok []) sid prompt st).2 = .ok sid ∧
    (start (.ok []) sid prompt st).1.db.searches = st.db.searches ∧
    (start (.ok []) sid prompt st).1.queue = st.queue ∧
    (start (.ok []) sid prompt st).1.agent.pendingSearches = some [] ∧
    getStatus q (start (.ok []) sid prompt st).1 sid = ("completed", []) := by
  refine ⟨rfl, rfl, rfl, rfl, ?_⟩
  obtain ⟨perm, hp, _, hq⟩ := hc
  have hrows : sessionAnalysisRows (start (.ok []) sid prompt st).1.db sid = [] := hfresh
  rw [hrows] at hp
  have hpnil : perm = [] := hp.symm.eq_nil
  have hqnil : q (start (.ok []) sid prompt st).1.db sid = [] := by
    rw [hq, hpnil]; rfl
  show getStatus q (start (.ok []) sid prompt st).1 sid = ("completed", [])
  rw [show getStatus q (start (.ok []) sid prompt st).1 sid =
    ("completed", q (start (.ok []) sid prompt st).1.db sid) from rfl, hqnil]

/-- C8 witness: the amended theorem at the empty initial state. -/
theorem start_zero_terms_terminal_empty_witness :
    getStatus qNil (start (.ok []) "S" "p" st0).1 "S" = ("completed", []) :=
  (start_zero_terms_terminal_empty "S" "p" st0 qNil rfl
    ⟨[], List.Perm.nil, List.chain'_nil, rfl⟩).2.2.2.2

/-- C10: when the term-derivation inference call throws, `start` propagates
the error to its caller, yet the session row is already persisted; the
stored `pendingSearches` key, the `searches` and `repo_analysis` tables and
the queue keep their prior values — `start` is not atomic on error. -/
theorem start_error_propagates_session_persisted (sid prompt : String) (st : SysState) :
    (start (.error ()) sid prompt st).2 = .error () ∧
    (start (.error ()) sid prompt st).1.db.sessions =
      st.db.sessions ++ [{ sessionId := sid, prompt := prompt }] ∧
    (start (.error ()) sid prompt st).1.agent.pendingSearches = st.agent.pendingSearches ∧
    (start (.error ()) sid prompt st).1.db.searches = st.db.searches ∧
    (start (.error ()) sid prompt st).1.db.repoAnalysis = st.db.repoAnalysis ∧
    (start (.error ()) sid prompt st).1.queue = st.queue :=
  ⟨rfl, rfl, rfl, rfl, rfl, rfl⟩

/-- C7 counterexample: with two equal-score rows for session A inserted at
`analyzedAt` 1 and 2, a store answer listing them newest-first satisfies
everything `ORDER BY relevancy_score DESC LIMIT 10` requires, and
`getStatus` returns it as is — the claimed analyzedAt-ascending tie order
is not enforced by the query. -/
theorem getStatus_tie_order_unspecified_cex :
    getStatus qTieReversed stTie "A" = ("completed", [rowTieSecond, rowTieFirst]) ∧
    d1CompliantAt stTie.db "A" [rowTieSecond, rowTieFirst] ∧
    rowTieFirst.relevancyScore = rowTieSecond.relevancyScore ∧
    rowTieFirst.analyzedAt < rowTieSecond.analyzedAt := by
  refine ⟨rfl, ⟨[rowTieSecond, rowTieFirst], ?_, ?_, rfl⟩, rfl, by decide⟩
  · have h : sessionAnalysisRows stTie.db "A" = [rowTieFirst, rowTieSecond] := by decide
    rw [h]
    exact List.Perm.swap rowTieSecond rowTieFirst []
  · refine List.chain'_cons.mpr ⟨?_, List.chain'_singleton rowTieFirst⟩
    show rowTieFirst.relevancyScore ≤ rowTieSecond.relevancyScore
    decide

/-- C7 (amended): once `pendingSearches` is empty or absent, `getStatus`
returns `completed` together with the store's answer, which the query
contract pins down to the 10-row truncation of some score-descending
reordering of the session's rows — the order among equal scores is
whatever the store chose, there being no secondary sort key. -/
theorem getStatus_completed_score_ordered (q : Db → String → List AnalysisRow)
    (st : SysState) (sid : String)
    (hc : d1CompliantAt st.db sid (q st.db sid))
    (hp : st.agent.pendingSearches = none ∨ st.agent.pendingSearches = some []) :
    ∃ perm, (sessionAnalysisRows st.db sid).Perm perm ∧ sortedScoreDesc perm ∧
      getStatus q st sid = ("completed", perm.take 10) := by
  obtain ⟨perm, h1, h2, h3⟩ := hc
  refine ⟨perm, h1, h2, ?_⟩
  rcases hp with h | h <;> simp [getStatus, h, h3]

/-- C7 witness: the amended theorem at the empty initial state. -/
theorem getStatus_completed_score_ordered_witness :
    ∃ perm, (sessionAnalysisRows st0.db "A").Perm perm ∧ sortedScoreDesc perm ∧
      getStatus qNil st0 "A" = ("completed", perm.take 10) :=
  getStatus_completed_score_ordered qNil st0 "A"
    ⟨[], List.Perm.nil, List.chain'_nil, rfl⟩ (Or.inl rfl)

/-- C9 counterexample: session A is complete and `getStatus` says so; then
session B's `start` alone flips A's observable status back to `pending`,
because both sessions share the singleton orchestrator's `pendingSearches`
key — sessions are not isolated. -/
theorem cross_session_interference_cex :
    (getStatus qNil stAdone "A").1 = "completed" ∧
    (getStatus qNil stB2 "A").1 = "pending" ∧
    stB2 = (start (.ok ["tB"]) "B" "pB" stAdone).1 :=
  ⟨by decide, by decide, rfl⟩

/-- The fan-out loop appends `searches` rows that all carry the dispatching
session's id, and touches neither `sessions` (beyond what its caller did),
`repo_analysis`, nor existing rows. -/
lemma dispatchAll_frame (sid : String) :
    ∀ (terms : List String) (db : Db) (q : List Msg), ∃ ext,
      (dispatchAll sid terms db q).1.searches = db.searches ++ ext ∧
      (∀ r ∈ ext, r.sessionId = sid) ∧
      (dispatchAll sid terms db q).1.repoAnalysis = db.repoAnalysis ∧
      (dispatchAll sid terms db q).1.sessions = db.sessions := by
  intro terms
  induction terms with
  | nil => exact fun db q => ⟨[], by simp [dispatchAll], by simp, rfl, rfl⟩
  | cons t ts ih =>
    intro db q
    obtain ⟨ext, h1, h2, h3, h4⟩ := ih
      { db with searches := db.searches ++
          [{ id := db.searches.length + 1, sessionId := sid, searchTerm := t,
             status := "pending" }] }
      (q ++ [{ sessionId := sid, searchId := db.searches.length + 1, searchTerm := t }])
    refine ⟨{ id := db.searches.length + 1, sessionId := sid, searchTerm := t,
              status := "pending" } :: ext, ?_, ?_, h3, h4⟩
    · rw [show (dispatchAll sid (t :: ts) db q).1 =
        (dispatchAll sid ts
          { db with searches := db.searches ++
              [{ id := db.searches.length + 1, sessionId := sid, searchTerm := t,
                 status := "pending" }] }
          (q ++ [{ sessionId := sid, searchId := db.searches.length + 1,
                   searchTerm := t }])).1 from rfl]
      rw [h1, List.append_assoc]
      rfl
    · intro r hr
      rcases List.mem_cons.mp hr with hEq | hr2
      · rw [hEq]
      · exact h2 r hr2

/-- C9 (amended): sessions are not isolated through the shared singleton
orchestrator (its `pendingSearches` key is overwritten by every `start`,
as the counterexample shows), but the relational store is framed: another
session's `start` leaves this session's `searches` and `repo_analysis`
rows unchanged, and `workflowComplete` never touches the database at
all. -/
theorem cross_session_store_frame (g : List String) (sidB prompt : String)
    (st : SysState) (sidA : String) (hne : sidA ≠ sidB) :
    sessionAnalysisRows (start (.ok g) sidB prompt st).1.db sidA =
      sessionAnalysisRows st.db sidA ∧
    sessionSearchRows (start (.ok g) sidB prompt st).1.db sidA =
      sessionSearchRows st.db sidA ∧
    (∀ i, (workflowComplete st i).db = st.db) := by
  obtain ⟨ext, h1, h2, h3, h4⟩ := dispatchAll_frame sidB g
    { st.db with sessions := st.db.sessions ++ [{ sessionId := sidB, prompt := prompt }] }
    st.queue
  refine ⟨?_, ?_, fun i => workflowComplete_db st i⟩
  · show sessionAnalysisRows (dispatchAll sidB g _ st.queue).1 sidA = _
    unfold sessionAnalysisRows
    rw [h3]
  · show sessionSearchRows (dispatchAll sidB g _ st.queue).1 sidA = _
    unfold sessionSearchRows
    rw [h1, List.filter_append]
    have hnil : ext.filter (fun r => r.sessionId == sidA) = [] := by
      rw [List.filter_eq_nil_iff]
      intro r hr
      have := h2 r hr
      simp [this, Ne.symm hne]
    rw [hnil, List.append_nil]

/-- C9 witness: the amended theorem for session B starting after A. -/
theorem cross_session_store_frame_witness :
    sessionAnalysisRows (start (.ok ["tB"]) "B" "pB" stAdone).1.db "A" =
      sessionAnalysisRows stAdone.db "A" ∧
    sessionSearchRows (start (.ok ["tB"]) "B" "pB" stAdone).1.db "A" =
      sessionSearchRows stAdone.db "A" ∧
    (∀ i, (workflowComplete stAdone i).db = stAdone.db) :=
  cross_session_store_frame ["tB"] "B" "pB" stAdone "A" (by decide)

/-- An insert through the uniqueness constraint preserves key
uniqueness: a duplicate key is refused, a fresh key is appended. -/
lemma uniqueAnalysisKeys_insert (db : Db) (row : AnalysisRow)
    (h : uniqueAnalysisKeys db) : uniqueAnalysisKeys (insertAnalysis db row).1 := by
  unfold insertAnalysis
  by_cases hk : keyPresent db.repoAnalysis row.sessionId row.repoFullName = true
  · simpa [hk] using h
  · rw [if_neg hk]
    unfold uniqueAnalysisKeys at h ⊢
    rw [List.pairwise_append]
    refine ⟨h, List.pairwise_singleton _ _, ?_⟩
    intro a ha b hb
    rw [List.mem_singleton] at hb
    subst hb
    intro hsame
    apply hk
    unfold keyPresent
    rw [List.any_eq_true]
    unfold sameKey at hsame
    exact ⟨a, ha, by simp [hsame.1, hsame.2]⟩

/-- Every primitive statement preserves key uniqueness of
`repo_analysis`. -/
lemma uniqueAnalysisKeys_applyOp (db : Db) (op : DbOp) (h : uniqueAnalysisKeys db) :
    uniqueAnalysisKeys (applyOp db op) := by
  cases op with
  | insertSessionOp row => exact h
  | insertSearchOp row => exact h
  | setSearchStatusOp i s => exact h
  | insertAnalysisOp row => exact uniqueAnalysisKeys_insert db row h

/-- C3: any sequence of primitive D1 statements — hence any interleaving
of concurrent queue consumers, since each statement is atomic — keeps at
most one `repo_analysis` row per `(sessionId, repoFullName)` pair: the
`UNIQUE` constraint modelled inside `insertAnalysis` is the race guard
even when an existence check has gone stale. -/
theorem analysis_keys_unique_all_interleavings (ops : List DbOp) :
    uniqueAnalysisKeys (List.foldl applyOp dbEmpty ops) := by
  have hgen : ∀ (l : List DbOp) (db : Db), uniqueAnalysisKeys db →
      uniqueAnalysisKeys (List.foldl applyOp db l) := by
    intro l
    induction l with
    | nil => exact fun db h => h
    | cons op rest ih =>
      exact fun db h => ih (applyOp db op) (uniqueAnalysisKeys_applyOp db op h)
  exact hgen ops dbEmpty (by simp [uniqueAnalysisKeys, dbEmpty])

/-- C2: the message is acknowledged only on the all-success path (an acked
run never errored), and reprocessing a redelivered message whose first
delivery was fully processed and acked is an exact no-op: the search is
deterministic, every candidate's key is already present so the dedup check
skips all inserts, the status update rewrites `completed` over `completed`,
and `workflowComplete` filters an id already absent — the state is
unchanged and the message is re-acknowledged. -/
theorem redelivery_idempotent (env : QueueEnv) (st : SysState) (m : Msg)
    (h : (processMessage env st m).acked = true) :
    (processMessage env st m).errored = false ∧
    processMessage env (processMessage env st m).state m =
      { state := (processMessage env st m).state, acked := true, errored := false } := by
  cases hs : env.search m.searchTerm with
  | error e => simp [processMessage, hs] at h
  | ok oitems =>
    cases oitems with
    | none => simp [processMessage, hs] at h
    | some items =>
      cases hl : analyzeLoop env m.sessionId m.searchId m.searchTerm st.db items with
      | mk db2 errb =>
        cases errb with
        | true => simp [processMessage, hs, hl] at h
        | false =>
          have hpost : processMessage env st m =
              { state := workflowComplete
                  { st with db :=
                    { db2 with searches := markCompleted db2.searches m.searchId } }
                  m.searchId,
                acked := true, errored := false } := by
            simp [processMessage, hs, hl]
          refine ⟨by rw [hpost], ?_⟩
          rw [hpost]
          have hdbeq : (workflowComplete
              { st with db := { db2 with searches := markCompleted db2.searches m.searchId } }
              m.searchId).db =
              { db2 with searches := markCompleted db2.searches m.searchId } :=
            workflowComplete_db _ _
          have hall : ∀ repo ∈ items,
              keyPresent db2.repoAnalysis m.sessionId repo.fullName = true :=
            analyzeLoop_ok_present env m.sessionId m.searchId m.searchTerm items st.db db2 hl
          have hall3 : ∀ repo ∈ items,
              keyPresent (workflowComplete
                { st with db := { db2 with searches := markCompleted db2.searches m.searchId } }
                m.searchId).db.repoAnalysis m.sessionId repo.fullName = true := by
            rw [hdbeq]; exact hall
          have h2 : analyzeLoop env m.sessionId m.searchId m.searchTerm
              (workflowComplete
                { st with db := { db2 with searches := markCompleted db2.searches m.searchId } }
                m.searchId).db items =
              ((workflowComplete
                { st with db := { db2 with searches := markCompleted db2.searches m.searchId } }
                m.searchId).db, false) :=
            analyzeLoop_allPresent env m.sessionId m.searchId m.searchTerm items _ hall3
          have hrun2 : processMessage env
              (workflowComplete
                { st with db := { db2 with searches := markCompleted db2.searches m.searchId } }
                m.searchId) m =
              { state := workflowComplete
                  { (workflowComplete
                      { st with db :=
                        { db2 with searches := markCompleted db2.searches m.searchId } }
                      m.searchId) with db :=
                    { (workflowComplete
                        { st with db :=
                          { db2 with searches := markCompleted db2.searches m.searchId } }
                        m.searchId).db with
                      searches := markCompleted (workflowComplete
                        { st with db :=
                          { db2 with searches := markCompleted db2.searches m.searchId } }
                        m.searchId).db.searches m.searchId } }
                  m.searchId,
                acked := true, errored := false } := by
            simp [processMessage, hs, h2]
          rw [hrun2]
          have hdb4 : { (workflowComplete
              { st with db := { db2 with searches := markCompleted db2.searches m.searchId } }
              m.searchId).db with
              searches := markCompleted (workflowComplete
                { st with db := { db2 with searches := markCompleted db2.searches m.searchId } }
                m.searchId).db.searches m.searchId } =
              { db2 with searches := markCompleted db2.searches m.searchId } := by
            rw [hdbeq]
            show ({ db2 with
                searches := markCompleted (markCompleted db2.searches m.searchId)
                  m.searchId } : Db) =
              { db2 with searches := markCompleted db2.searches m.searchId }
            rw [markCompleted_idem]
          rw [hdb4]
          rw [setDb_eta (workflowComplete
            { st with db := { db2 with searches := markCompleted db2.searches m.searchId } }
            m.searchId)
            { db2 with searches := markCompleted db2.searches m.searchId } hdbeq]
          rw [workflowComplete_idem]

/-- C2 witness: the theorem applied to a concrete acked first delivery of a
one-repository task. -/
theorem redelivery_idempotent_witness :
    (processMessage envOneRepo stA mA).errored = false ∧
    processMessage envOneRepo (processMessage envOneRepo stA mA).state mA =
      { state := (processMessage envOneRepo stA mA).state, acked := true, errored := false } :=
  redelivery_idempotent envOneRepo stA mA (by decide)

example : (searchRepositoriesWithRetry (fun _ => .throwErr)).sleepsMs = [1000, 2000] := by decide

example : (searchRepositoriesWithRetry (fun _ => .throwErr)).result = .error () := rfl

example : (searchRepositoriesWithRetry (fun _ => .non200)).result = .ok none := rfl

example : analyzeRepository (.ok "near 0.75 maybe") .throwErr = .ok (mkRat 3 4) := rfl

end CoreGH
